/-
Verification of the non-blocking tween animator (`OvershootAnimator`) and the
step-sequencing scheduler loop of the Fruit-Jam-OS boot animation
(`src/src/boot.py`, the animator duplicated verbatim in
`src/src/boot_animation.py`).

Modelling conventions:
* Python floats (times, eased positions) are modelled as exact rationals `ℚ`;
  entity pixel coordinates and sprite-frame indices are `Int`.
* Each `time.monotonic()` sample is an explicit `now : ℚ` argument.
* The external math collaborators `math.sqrt` and the non-integral real power
  `x ** 1.2` are fields of a `RealFns` parameter (they are libm calls, not code
  of this repository); the integral powers `** 2`, `** 4` are ring powers.
* Fallible Python operations (arithmetic or comparison on `None`, division by
  zero, indexing an empty list, a missing dict key) return `none`.
* Python `int(x)` truncates toward zero (`truncQ`).
-/
import Mathlib

namespace FruitJam

/-- The external math library collaborator: `math.sqrt` and the non-integral
real power `fun x => x ** 1.2` used by the overshoot easing curve. -/
structure RealFns where
  sqrt : ℚ → ℚ
  pow12 : ℚ → ℚ

/-- Python `int(x)` truncation toward zero on a rational. -/
def truncQ (q : ℚ) : Int :=
  if 0 ≤ q then ⌊q⌋ else ⌈q⌉

/-- The animated entity handle: mutable integer `x`, `y` pixel coordinates and
the indexable current-sprite-frame slot (`element[0]`). -/
structure Element where
  x : Int
  y : Int
  frame : Int
deriving DecidableEq, Repr

/-- The full mutable state of one `OvershootAnimator` (boot.py lines 34-59),
together with its borrowed element. -/
structure AnimState where
  elem : Element
  pos_animating : Bool
  start_time : ℚ
  start_x : Int
  start_y : Int
  target_x : Int
  target_y : Int
  overshoot_x : ℚ
  overshoot_y : ℚ
  duration : ℚ
  overshoot_pixels : Int
  eased_value : Option ℚ
  cur_sprite_index : Option Int
  last_sprite_frame_time : ℚ
  sprite_anim_start_time : ℚ
  sprite_anim_from_index : Option Int
  sprite_anim_to_index : Option Int
  sprite_anim_delay : Option ℚ
deriving DecidableEq, Repr

/-- Model of `OvershootAnimator.__init__` (boot.py lines 34-59). -/
def initAnim (elem : Element) : AnimState where
  elem := elem
  pos_animating := false
  start_time := 0
  start_x := 0
  start_y := 0
  target_x := 0
  target_y := 0
  overshoot_x := 0
  overshoot_y := 0
  duration := 0
  overshoot_pixels := 0
  eased_value := none
  cur_sprite_index := none
  last_sprite_frame_time := -1
  sprite_anim_start_time := -1
  sprite_anim_from_index := none
  sprite_anim_to_index := none
  sprite_anim_delay := none

/-- Model of `OvershootAnimator.animate_to` (boot.py lines 61-114).  `now` is
the `time.monotonic()` sample taken at the top of the call; optional Python
arguments are `Option`s (`none` = Python `None`).  Returns the updated state
and the boolean result. -/
def animate_to (M : RealFns) (s : AnimState) (now : ℚ)
    (target_x target_y : Int) (duration : ℚ) (overshoot_pixels : Int)
    (start_sprite_anim_at : Option ℚ) (sprite_delay : Option ℚ)
    (sprite_from_index sprite_to_index : Option Int)
    (eased_value : Option ℚ) : AnimState × Bool :=
  -- Record starting position and time
  let s := { s with start_x := s.elem.x, start_y := s.elem.y, start_time := now }
  let s :=
    match start_sprite_anim_at with
    | some t =>
      { s with sprite_anim_start_time := now + t
               sprite_anim_to_index := sprite_to_index
               sprite_anim_from_index := sprite_from_index
               cur_sprite_index := sprite_from_index
               sprite_anim_delay := sprite_delay }
    | none => s
  -- Store target position and parameters
  let s := { s with target_x := target_x, target_y := target_y
                    duration := duration, overshoot_pixels := overshoot_pixels }
  -- Calculate distance to target
  let dx : ℚ := ((target_x - s.start_x : Int) : ℚ)
  let dy : ℚ := ((target_y - s.start_y : Int) : ℚ)
  let distance := M.sqrt (dx * dx + dy * dy)
  if distance ≤ 0 then
    -- Already at target
    (s, false)
  else
    let dir_x := dx / distance
    let dir_y := dy / distance
    -- Calculate overshoot position; start the animation
    (({ s with overshoot_x := (target_x : ℚ) + dir_x * (overshoot_pixels : ℚ)
               overshoot_y := (target_y : ℚ) + dir_y * (overshoot_pixels : ℚ)
               eased_value := eased_value
               pos_animating := true } : AnimState), true)

/-- Model of `OvershootAnimator.sprite_anim_tick` (boot.py lines 116-135).
`none` models the `TypeError` Python raises when a sprite field is `None`
while the arithmetic or comparison on it is reached. -/
def sprite_anim_tick (s : AnimState) (cur_time : ℚ) : Option (AnimState × Bool) := do
  let d ← s.sprite_anim_delay
  if s.last_sprite_frame_time + d ≤ cur_time then
    let ci ← s.cur_sprite_index
    -- element[0] = cur_sprite_index; record frame-write time; increment index
    let s1 := { s with elem := { s.elem with frame := ci }
                       last_sprite_frame_time := cur_time
                       cur_sprite_index := some (ci + 1) }
    let toIdx ← s1.sprite_anim_to_index
    if toIdx < ci + 1 then
      some ({ s1 with cur_sprite_index := none
                      sprite_anim_from_index := none
                      sprite_anim_to_index := none
                      sprite_anim_delay := none
                      last_sprite_frame_time := -1
                      sprite_anim_start_time := -1 }, false)
    else
      some (s1, true)
  else
    some (s, true)

/-- The position-update tail of `OvershootAnimator.tick` (boot.py lines
161-209): elapsed/progress computation, the `progress >= 1.0` snap, and the
three easing branches.  `still_sprite` is the `still_sprite_animating` local.
`none` models `ZeroDivisionError` (`duration == 0`, or `eased_value == 0`). -/
def tick_pos (M : RealFns) (s : AnimState) (now : ℚ) (still_sprite : Bool) :
    Option (AnimState × Bool) :=
  if s.duration = 0 then none
  else
    let elapsed := now - s.start_time
    let progress := elapsed / s.duration
    if 1 ≤ progress then
      -- Ensure we end exactly at the target
      let elem1 :=
        if s.elem.x ≠ s.target_x ∨ s.elem.y ≠ s.target_y then
          { s.elem with x := s.target_x, y := s.target_y }
        else s.elem
      some ({ s with elem := elem1, pos_animating := false }, still_sprite)
    else
      let xy : Option (ℚ × ℚ) :=
        if 0 < s.overshoot_pixels then
          if progress < 7/10 then
            let eased := M.pow12 (progress / (7/10))
            some ((s.start_x : ℚ) + (s.overshoot_x - (s.start_x : ℚ)) * eased,
                  (s.start_y : ℚ) + (s.overshoot_y - (s.start_y : ℚ)) * eased)
          else
            let sub_progress := (progress - 7/10) / (3/10)
            let eased := 1 - (1 - sub_progress) ^ 2
            some (s.overshoot_x + ((s.target_x : ℚ) - s.overshoot_x) * eased,
                  s.overshoot_y + ((s.target_y : ℚ) - s.overshoot_y) * eased)
        else
          match s.eased_value with
          | none =>
            let eased := 1 - (1 - progress) ^ 4
            some ((s.start_x : ℚ) + ((s.target_x : ℚ) - (s.start_x : ℚ)) * eased,
                  (s.start_y : ℚ) + ((s.target_y : ℚ) - (s.start_y : ℚ)) * eased)
          | some ev =>
            if ev = 0 then none
            else
              let eased := progress / ev
              some ((s.start_x : ℚ) + ((s.target_x : ℚ) - (s.start_x : ℚ)) * eased,
                    (s.start_y : ℚ) + ((s.target_y : ℚ) - (s.start_y : ℚ)) * eased)
      match xy with
      | none => none
      | some (cx, cy) =>
        some ({ s with elem := { s.elem with x := truncQ cx, y := truncQ cy } }, true)

/-- Model of `OvershootAnimator.tick` (boot.py lines 137-209).  `now` is the
`time.monotonic()` sample taken at the top of the call. -/
def tick (M : RealFns) (s : AnimState) (now : ℚ) : Option (AnimState × Bool) :=
  match s.cur_sprite_index with
  | some _ =>
    if s.sprite_anim_start_time ≤ now then
      match sprite_anim_tick s now with
      | none => none
      | some (s1, still) =>
        if still then tick_pos M s1 now true
        else some (s1, false)
    else
      tick_pos M s now false
  | none =>
    if s.pos_animating then tick_pos M s now false
    else some (s, false)

/-- Model of `OvershootAnimator.is_animating` (boot.py lines 211-213). -/
def is_animating (s : AnimState) : Bool :=
  s.pos_animating

/-- Model of `OvershootAnimator.cancel` (boot.py lines 215-217). -/
def cancel (s : AnimState) : AnimState :=
  { s with pos_animating := false }

/-- A concrete executable instance of the math collaborator, used to evaluate
the model on concrete inputs.  Its `sqrt` agrees with `math.sqrt` on the
perfect-square integer distances of the concrete runs below (`sqrt 25 = 5`,
`sqrt 0 = 0`) and is positive on positive rationals, like the real square
root. -/
def testFns : RealFns where
  sqrt q := (Nat.sqrt q.num.toNat : ℚ)
  pow12 q := q

/-- The projection of an animator state to everything the position tween
reads or writes: element position, the position-tween parameters, and
`pos_animating`.  Sprite sub-tween fields and the frame slot are excluded. -/
def posView (s : AnimState) :
    Int × Int × Bool × ℚ × Int × Int × Int × Int × ℚ × ℚ × ℚ × Int × Option ℚ :=
  (s.elem.x, s.elem.y, s.pos_animating, s.start_time, s.start_x, s.start_y,
   s.target_x, s.target_y, s.overshoot_x, s.overshoot_y, s.duration,
   s.overshoot_pixels, s.eased_value)

/-- Two animator states agree on the whole position tween (parameters and
element position) and neither has a sprite sub-tween armed.  Sprite-slot
contents and sprite bookkeeping may differ. -/
def PosAgree (s₁ s₂ : AnimState) : Prop :=
  posView s₁ = posView s₂ ∧
  s₁.cur_sprite_index = none ∧ s₂.cur_sprite_index = none

/-- Drives repeated `tick` calls at the given sampled times, recording the
entity's integer position after each call (the position sequence observed by
the renderer). -/
def tickTrace (M : RealFns) : AnimState → List ℚ → Option (List (Int × Int))
  | _, [] => some []
  | s, t :: ts => do
    let r ← tick M s t
    let ps ← tickTrace M r.1 ts
    some ((r.1.elem.x, r.1.elem.y) :: ps)

/-! Scheduler model: the step table entries and the body of the
`while True:` frame loop (boot.py lines 724-778). -/

/-- The fields of one `animation_step` dict that the frame loop reads.
`animIdx` identifies the step's `OvershootAnimator` in a shared store, since
several steps alias the same animator/tilegrid (the bounce steps); the
tilegrid a step repositions is that animator's element. -/
structure AnimStepData where
  animIdx : Nat
  offscreen_loc : Int × Int
  onscreen_loc : Int × Int
  move_duration : ℚ
  overshoot_pixels : Int
  eased_value : Option ℚ
  sprite_anim_range : Option (Int × Int)
  sprite_delay : Option ℚ
  sprite_anim_start : Option ℚ
deriving DecidableEq, Repr

/-- A coordinator step is either an `animation_step` or a `change_palette`
entry (its target color). -/
inductive StepKind where
  | animStep (a : AnimStepData)
  | changePalette (color : Nat)
deriving DecidableEq, Repr

/-- One entry of `coordinator["steps"]`: its kind, its relative start time,
and its mutable `started` flag. -/
structure SchedStep where
  kind : StepKind
  start_time : ℚ
  started : Bool
deriving DecidableEq, Repr

/-- The mutable state the frame loop works over: the step list, the shared
animator store, the last color applied through the palette recolor hook
(`color_sweep_all`), and the sequence origin (`start_time` in boot.py). -/
structure SchedState where
  steps : List SchedStep
  anims : Nat → AnimState
  palette : Nat
  origin : ℚ

/-- Pointwise update of the shared animator store. -/
def updateStore (f : Nat → AnimState) (i : Nat) (a : AnimState) : Nat → AnimState :=
  fun j => if j = i then a else f j

/-- Firing an `animation_step`: the `animate_to` call made when a step first
starts (boot.py lines 735-748), passing the sprite arguments only when the
step has a `sprite_anim_range`.  `1/60` is `animate_to`'s default
`sprite_delay` (unused when no sprite tween is armed). -/
def fire_anim_step (M : RealFns) (an : AnimState) (a : AnimStepData) (now : ℚ) : AnimState :=
  match a.sprite_anim_range with
  | some r =>
    (animate_to M an now a.onscreen_loc.1 a.onscreen_loc.2 a.move_duration
      a.overshoot_pixels a.sprite_anim_start a.sprite_delay
      (some r.1) (some r.2) a.eased_value).1
  | none =>
    (animate_to M an now a.onscreen_loc.1 a.onscreen_loc.2 a.move_duration
      a.overshoot_pixels none (some (1/60)) none none a.eased_value).1

/-- The `for i, step in enumerate(coordinator["steps"])` pass of one frame
(boot.py lines 730-759): starts each due, not-yet-started step and ticks every
due step that carries an animator; the last step's tick result (or `False`
for a due last step without an animator) becomes `still_going`.  Arguments:
current step suffix, current index `i`, then the accumulated animator store,
palette color, and `still_going`. -/
def run_steps (M : RealFns) (now elapsed : ℚ) (lastIdx : Nat) :
    List SchedStep → Nat → (Nat → AnimState) → Nat → Bool →
    Option (List SchedStep × (Nat → AnimState) × Nat × Bool)
  | [], _, anims, pal, still => some ([], anims, pal, still)
  | step :: rest, i, anims, pal, still =>
    if step.start_time ≤ elapsed then
      let fired :=
        if step.started then (step, anims, pal)
        else
          match step.kind with
          | .animStep a =>
            ({ step with started := true },
             updateStore anims a.animIdx (fire_anim_step M (anims a.animIdx) a now), pal)
          | .changePalette c => ({ step with started := true }, anims, c)
      match fired with
      | (step1, anims1, pal1) =>
        match step1.kind with
        | .animStep a => do
          let tr ← tick M (anims1 a.animIdx) now
          let anims2 := updateStore anims1 a.animIdx tr.1
          let still1 := if i = lastIdx then tr.2 else still
          let res ← run_steps M now elapsed lastIdx rest (i + 1) anims2 pal1 still1
          some (step1 :: res.1, res.2)
        | .changePalette _ => do
          let still1 := if i = lastIdx then false else still
          let res ← run_steps M now elapsed lastIdx rest (i + 1) anims1 pal1 still1
          some (step1 :: res.1, res.2)
    else do
      let res ← run_steps M now elapsed lastIdx rest (i + 1) anims pal still
      some (step :: res.1, res.2)

/-- The per-step body of the restart pass (boot.py lines 764-769): an
`animation_step`'s tilegrid — its animator's element — is repositioned to the
step's `offscreen_loc`; a `change_palette` step repositions nothing. -/
def reset_step (acc : Nat → AnimState) (step : SchedStep) : Nat → AnimState :=
  match step.kind with
  | .animStep a =>
    updateStore acc a.animIdx
      { acc a.animIdx with elem := { (acc a.animIdx).elem with
          x := a.offscreen_loc.1, y := a.offscreen_loc.2 } }
  | .changePalette _ => acc

/-- The body of the boot-animation `while True:` frame loop (boot.py lines
726-778).  `now` is the `time.monotonic()` sample at the top of the frame.
When `still_going` comes back false the loop repositions each
`animation_step`'s tilegrid to its `offscreen_loc`, clears every `started`
flag, resets step 0's tilegrid to sprite frame 0, pauses two seconds
(`time.sleep(2)`), restores the white palette, and re-samples the origin:
`now2` is that later `time.monotonic()` sample (`start_time = time.monotonic()`).
Returns `none` on a Python exception (a failing tick, or the `[0]` index /
`"tilegrid"` key lookup failing in the restart). -/
def sched_frame (M : RealFns) (st : SchedState) (now now2 : ℚ) : Option SchedState := do
  let res ← run_steps M now (now - st.origin) (st.steps.length - 1)
      st.steps 0 st.anims st.palette true
  match res with
  | (steps1, anims1, pal1, still) =>
    if still then
      some { steps := steps1, anims := anims1, palette := pal1, origin := st.origin }
    else
      let anims2 := steps1.foldl reset_step anims1
      let steps2 := steps1.map (fun step => { step with started := false })
      -- coordinator["steps"][0]["tilegrid"][0] = 0
      let step0 ← steps1.head?
      match step0.kind with
      | .animStep a0 =>
        let anims3 := updateStore anims2 a0.animIdx
          { anims2 a0.animIdx with elem := { (anims2 a0.animIdx).elem with frame := 0 } }
        some { steps := steps2, anims := anims3, palette := 0xffffff, origin := now2 }
      | .changePalette _ => none

/-! Concrete instances used by witnesses and counterexamples. -/

/-- Result of the concrete `animate_to` call of the C1 counterexample: target
`(3, 4)` from `(0, 0)` (distance 25 = 5²), duration 1, no overshoot, sprite
sub-tween armed immediately with `from = to = 5`. -/
def c1cexAnim : AnimState × Bool :=
  animate_to testFns (initAnim ⟨0, 0, 0⟩) 0 3 4 1 0
    (some 0) (some (1/60)) (some 5) (some 5) none

/-- A concrete animator state whose sprite sub-tween is armed over frames
2..5 with delay 1/2, armed at time 2, while the position tween is already at
its target. -/
def c5S : AnimState :=
  { initAnim ⟨9, 9, 0⟩ with
    target_x := 9, target_y := 9, duration := 1, start_time := 0,
    cur_sprite_index := some 2, sprite_anim_from_index := some 2,
    sprite_anim_to_index := some 5, sprite_anim_delay := some (1/2),
    sprite_anim_start_time := 2, last_sprite_frame_time := -1 }

/-- The `animation_step` data of the apple step in the concrete restart run. -/
def c6Apple : AnimStepData where
  animIdx := 0
  offscreen_loc := (0, -107)
  onscreen_loc := (0, 21)
  move_duration := 45/100
  overshoot_pixels := 1
  eased_value := none
  sprite_anim_range := some (0, 11)
  sprite_delay := some (1/42)
  sprite_anim_start := some (347/1000)

/-- The `animation_step` data of the letter step in the concrete restart run. -/
def c6Letter : AnimStepData where
  animIdx := 1
  offscreen_loc := (83, 100)
  onscreen_loc := (83, 67)
  move_duration := 45/100
  overshoot_pixels := 20
  eased_value := none
  sprite_anim_range := none
  sprite_delay := none
  sprite_anim_start := none

/-- A concrete three-step scheduler state in which every step is due and
started and every animator is idle, so the frame's `still_going` comes back
false and the restart branch runs. -/
def c6St : SchedState where
  steps :=
    [ { kind := .animStep c6Apple, start_time := 0, started := true },
      { kind := .changePalette 0xff0000, start_time := 19/4, started := true },
      { kind := .animStep c6Letter, start_time := 9/20, started := true } ]
  anims := fun _ => initAnim ⟨0, 0, 0⟩
  palette := 0xffffff
  origin := 0

/-- The state produced by the `animate_to` call of `c1cexAnim` (checked by
`rfl` in the counterexample): position tween to `(3, 4)` over 1 second, sprite
sub-tween armed on its final frame. -/
def c1cexS : AnimState :=
  ⟨⟨0, 0, 0⟩, true, 0, 0, 0, 3, 4, 3, 4, 1, 0, none, some 5, -1, 0,
   some 5, some 5, some (1/60)⟩

/-- The state after `tick` at time 2 on `c1cexS`: sprite fields cleared, the
element still at `(0, 0)` and `pos_animating` still true. -/
def c1cexDone : AnimState :=
  ⟨⟨0, 0, 5⟩, true, 0, 0, 0, 3, 4, 3, 4, 1, 0, none, none, -1, -1,
   none, none, none⟩

/-- A mid-flight position tween to `(3, 4)` with no sprite sub-tween. -/
def c1wS : AnimState :=
  ⟨⟨0, 0, 0⟩, true, 0, 0, 0, 3, 4, 3, 4, 1, 0, none, none, -1, -1,
   none, none, none⟩

/-- The state left behind by a rejected zero-distance `animate_to` call that
nonetheless armed a sprite sub-tween (checked by `rfl` in the C9 witness). -/
def c9R : AnimState :=
  ⟨⟨5, 7, 0⟩, false, 0, 5, 7, 5, 7, 0, 0, 2, 3, none, some 2, -1, 1,
   some 2, some 6, some (1/4)⟩

/-- A mid-flight overshoot tween: start `(0, 0)`, target `(10, 0)`, overshoot
point `(12, 0)`, `overshoot_pixels = 2`, duration 1. -/
def c4S : AnimState :=
  ⟨⟨0, 0, 0⟩, true, 0, 0, 0, 10, 0, 12, 0, 1, 2, none, none, -1, -1,
   none, none, none⟩

/-- A concrete state whose sprite sub-tween is on its last frame (index 5 of
2..5), used to exercise sprite completion. -/
def c3S : AnimState := { c5S with cur_sprite_index := some 5 }

/-- Like `c3S` but with the position tween still flagged active. -/
def c10S : AnimState := { c5S with cur_sprite_index := some 5, pos_animating := true }

end FruitJam

/-! Helper lemmas about the animator's branches, shared by the claim
theorems below. -/

namespace FruitJam

/-- The `progress >= 1.0` snap branch of the position tail. -/
theorem tick_pos_ge_one (M : RealFns) (s : AnimState) (now : ℚ) (still : Bool)
    (hdur : s.duration ≠ 0) (hprog : 1 ≤ (now - s.start_time) / s.duration) :
    tick_pos M s now still =
      some ({ s with elem := { s.elem with x := s.target_x, y := s.target_y }
                     pos_animating := false }, still) := by
  unfold tick_pos
  rw [if_neg hdur, if_pos hprog]
  by_cases hc : s.elem.x ≠ s.target_x ∨ s.elem.y ≠ s.target_y
  · rw [if_pos hc]
  · rw [if_neg hc]
    push_neg at hc
    obtain ⟨hcx, hcy⟩ := hc
    rw [← hcx, ← hcy]

/-- Sprite sub-tween delay elapsed and not yet past the end: the frame slot
is written and the index increments. -/
theorem sprite_step_advances (s : AnimState) (cur_time : ℚ) (ci toI : Int) (d : ℚ)
    (hcur : s.cur_sprite_index = some ci) (hd : s.sprite_anim_delay = some d)
    (hto : s.sprite_anim_to_index = some toI)
    (hlast : s.last_sprite_frame_time + d ≤ cur_time) (hcont : ci + 1 ≤ toI) :
    sprite_anim_tick s cur_time =
      some ({ s with elem := { s.elem with frame := ci }
                     last_sprite_frame_time := cur_time
                     cur_sprite_index := some (ci + 1) }, true) := by
  unfold sprite_anim_tick
  rw [hd]
  simp only [Option.bind_eq_bind, Option.some_bind, if_pos hlast, hcur, hto]
  rw [if_neg (by omega)]

/-- Sprite sub-tween delay not yet elapsed: nothing changes. -/
theorem sprite_step_gated (s : AnimState) (cur_time : ℚ) (d : ℚ)
    (hd : s.sprite_anim_delay = some d)
    (hlate : cur_time < s.last_sprite_frame_time + d) :
    sprite_anim_tick s cur_time = some (s, true) := by
  unfold sprite_anim_tick
  rw [hd]
  simp only [Option.bind_eq_bind, Option.some_bind]
  rw [if_neg (by linarith)]

/-- Sprite sub-tween increments past `sprite_anim_to_index`: all sprite
fields reset to inactive and the call reports `false`. -/
theorem sprite_step_completes (s : AnimState) (cur_time : ℚ) (ci toI : Int) (d : ℚ)
    (hcur : s.cur_sprite_index = some ci) (hd : s.sprite_anim_delay = some d)
    (hto : s.sprite_anim_to_index = some toI)
    (hlast : s.last_sprite_frame_time + d ≤ cur_time) (hdone : toI < ci + 1) :
    sprite_anim_tick s cur_time =
      some ({ s with elem := { s.elem with frame := ci }
                     last_sprite_frame_time := -1
                     cur_sprite_index := none
                     sprite_anim_from_index := none
                     sprite_anim_to_index := none
                     sprite_anim_delay := none
                     sprite_anim_start_time := -1 }, false) := by
  unfold sprite_anim_tick
  rw [hd]
  simp only [Option.bind_eq_bind, Option.some_bind, if_pos hlast, hcur, hto]
  rw [if_pos (by omega)]

/-- A `tick` in which the sprite sub-tween completes: early return `false`,
no position update. -/
theorem tick_sprite_done (M : RealFns) (s : AnimState) (now : ℚ) (ci toI : Int) (d : ℚ)
    (hcur : s.cur_sprite_index = some ci) (hd : s.sprite_anim_delay = some d)
    (hto : s.sprite_anim_to_index = some toI)
    (hstart : s.sprite_anim_start_time ≤ now)
    (hlast : s.last_sprite_frame_time + d ≤ now) (hdone : toI < ci + 1) :
    tick M s now =
      some ({ s with elem := { s.elem with frame := ci }
                     last_sprite_frame_time := -1
                     cur_sprite_index := none
                     sprite_anim_from_index := none
                     sprite_anim_to_index := none
                     sprite_anim_delay := none
                     sprite_anim_start_time := -1 }, false) := by
  have h1 := sprite_step_completes s now ci toI d hcur hd hto hlast hdone
  simp only [tick, hcur, if_pos hstart, h1]
  simp

/-- A `tick` in which the sprite sub-tween advances and the position tween is
past its duration: frame written, index incremented, position snapped. -/
theorem tick_sprite_step_snap (M : RealFns) (s : AnimState) (now : ℚ) (ci toI : Int) (d : ℚ)
    (hcur : s.cur_sprite_index = some ci) (hd : s.sprite_anim_delay = some d)
    (hto : s.sprite_anim_to_index = some toI)
    (hstart : s.sprite_anim_start_time ≤ now)
    (hlast : s.last_sprite_frame_time + d ≤ now) (hcont : ci + 1 ≤ toI)
    (hdur : s.duration ≠ 0) (hprog : 1 ≤ (now - s.start_time) / s.duration) :
    tick M s now =
      some ({ s with elem := { s.elem with frame := ci, x := s.target_x, y := s.target_y }
                     last_sprite_frame_time := now
                     cur_sprite_index := some (ci + 1)
                     pos_animating := false }, true) := by
  have h1 := sprite_step_advances s now ci toI d hcur hd hto hlast hcont
  have h2 := tick_pos_ge_one M
    { s with elem := { s.elem with frame := ci }
             last_sprite_frame_time := now
             cur_sprite_index := some (ci + 1) } now true hdur hprog
  simp only [tick, hcur, if_pos hstart, h1, h2]
  simp

/-- A `tick` in which the sprite sub-tween is armed and started but gated by
its frame delay, while the position tween is past its duration. -/
theorem tick_sprite_wait_snap (M : RealFns) (s : AnimState) (now : ℚ) (ci : Int) (d : ℚ)
    (hcur : s.cur_sprite_index = some ci) (hd : s.sprite_anim_delay = some d)
    (hstart : s.sprite_anim_start_time ≤ now)
    (hlate : now < s.last_sprite_frame_time + d)
    (hdur : s.duration ≠ 0) (hprog : 1 ≤ (now - s.start_time) / s.duration) :
    tick M s now =
      some ({ s with elem := { s.elem with x := s.target_x, y := s.target_y }
                     pos_animating := false }, true) := by
  have h1 := sprite_step_gated s now d hd hlate
  have h2 := tick_pos_ge_one M s now true hdur hprog
  simp only [tick, hcur, if_pos hstart, h1, h2]
  simp

/-- A `tick` with no sprite sub-tween and the position tween past its
duration: snap to the target, clear `pos_animating`, return `false`. -/
theorem tick_idle_snap (M : RealFns) (s : AnimState) (now : ℚ)
    (hcur : s.cur_sprite_index = none) (hpos : s.pos_animating = true)
    (hdur : s.duration ≠ 0) (hprog : 1 ≤ (now - s.start_time) / s.duration) :
    tick M s now =
      some ({ s with elem := { s.elem with x := s.target_x, y := s.target_y }
                     pos_animating := false }, false) := by
  have h2 := tick_pos_ge_one M s now false hdur hprog
  simp only [tick, hcur, hpos, if_pos rfl, h2]
  simp

/-- With no sprite sub-tween armed and `pos_animating` set, `tick` is just
the position tail. -/
theorem tick_no_sprite (M : RealFns) (s : AnimState) (now : ℚ)
    (hcur : s.cur_sprite_index = none) (hpos : s.pos_animating = true) :
    tick M s now = tick_pos M s now false := by
  simp [tick, hcur, hpos]

/-- The `progress < 1.0` position tail always writes a truncated position and
returns `true`, provided neither division can raise. -/
theorem tick_pos_lt_one (M : RealFns) (s : AnimState) (now : ℚ) (b : Bool)
    (hdur : s.duration ≠ 0) (hlt : (now - s.start_time) / s.duration < 1)
    (hev : s.eased_value ≠ some 0) :
    ∃ cx cy, tick_pos M s now b =
      some ({ s with elem := { s.elem with x := truncQ cx, y := truncQ cy } }, true) := by
  unfold tick_pos
  rw [if_neg hdur, if_neg (not_le.mpr hlt)]
  by_cases h1 : 0 < s.overshoot_pixels
  · by_cases h2 : (now - s.start_time) / s.duration < 7/10
    · rw [if_pos h1, if_pos h2]
      exact ⟨_, _, rfl⟩
    · rw [if_pos h1, if_neg h2]
      exact ⟨_, _, rfl⟩
  · rw [if_neg h1]
    rcases hev2 : s.eased_value with _ | ev
    · exact ⟨_, _, rfl⟩
    · have hev0 : ev ≠ 0 := by rintro rfl; exact hev hev2
      simp only [hev2, if_neg hev0]
      exact ⟨_, _, rfl⟩

end FruitJam
namespace FruitJam

theorem is_animating_pos_only (s : AnimState) :
    is_animating s = s.pos_animating ∧
    (s.cur_sprite_index ≠ none → s.pos_animating = false → is_animating s = false) :=
  ⟨rfl, fun _ h => h⟩

theorem is_animating_pos_only_witness :
    is_animating { initAnim ⟨0, 0, 0⟩ with cur_sprite_index := some 1 } = false :=
  (is_animating_pos_only { initAnim ⟨0, 0, 0⟩ with cur_sprite_index := some 1 }).2
    (by simp) rfl

theorem animate_to_zero_distance (M : RealFns) (s : AnimState) (now : ℚ)
    (tx ty : Int) (dur : ℚ) (op : Int) (ssa sd : Option ℚ) (sf st : Option Int)
    (ev : Option ℚ)
    (hx : s.elem.x = tx) (hy : s.elem.y = ty) (hsqrt : M.sqrt 0 = 0) :
    (animate_to M s now tx ty dur op ssa sd sf st ev).2 = false ∧
    (animate_to M s now tx ty dur op ssa sd sf st ev).1.pos_animating
      = s.pos_animating := by
  unfold animate_to
  simp only [hx, hy, sub_self, Int.cast_zero, mul_zero, zero_add]
  constructor
  · cases ssa <;> simp [hsqrt]
  · cases ssa <;> simp [hsqrt]

theorem animate_to_zero_distance_witness :
    (animate_to testFns (initAnim ⟨5, 7, 0⟩) 10 5 7 1 20 none (some (1/60))
        none none none).2 = false ∧
    (animate_to testFns (initAnim ⟨5, 7, 0⟩) 10 5 7 1 20 none (some (1/60))
        none none none).1.pos_animating = (initAnim ⟨5, 7, 0⟩).pos_animating :=
  animate_to_zero_distance testFns (initAnim ⟨5, 7, 0⟩) 10 5 7 1 20 none
    (some (1/60)) none none none rfl rfl rfl

theorem tick_sprite_completion_resets (M : RealFns) (s : AnimState) (now : ℚ)
    (ci toI : Int) (d : ℚ)
    (hcur : s.cur_sprite_index = some ci) (hd : s.sprite_anim_delay = some d)
    (hto : s.sprite_anim_to_index = some toI)
    (hstart : s.sprite_anim_start_time ≤ now)
    (hlast : s.last_sprite_frame_time + d ≤ now) (hdone : toI < ci + 1) :
    ∃ s', tick M s now = some (s', false) ∧
      s'.cur_sprite_index = none ∧ s'.sprite_anim_from_index = none ∧
      s'.sprite_anim_to_index = none ∧ s'.sprite_anim_delay = none ∧
      s'.last_sprite_frame_time = -1 ∧ s'.sprite_anim_start_time = -1 ∧
      s'.elem.x = s.elem.x ∧ s'.elem.y = s.elem.y ∧
      s'.pos_animating = s.pos_animating :=
  ⟨_, tick_sprite_done M s now ci toI d hcur hd hto hstart hlast hdone,
    rfl, rfl, rfl, rfl, rfl, rfl, rfl, rfl, rfl⟩

theorem tick_sprite_completion_resets_witness :
    ∃ s', tick testFns c3S 3 = some (s', false) ∧
      s'.cur_sprite_index = none ∧ s'.sprite_anim_from_index = none ∧
      s'.sprite_anim_to_index = none ∧ s'.sprite_anim_delay = none ∧
      s'.last_sprite_frame_time = -1 ∧ s'.sprite_anim_start_time = -1 ∧
      s'.elem.x = c3S.elem.x ∧ s'.elem.y = c3S.elem.y ∧
      s'.pos_animating = c3S.pos_animating :=
  tick_sprite_completion_resets testFns c3S 3 5 5 (1/2) rfl rfl rfl
    (by norm_num [c3S, c5S, initAnim]) (by norm_num [c3S, c5S, initAnim])
    (by norm_num)

theorem tick_false_not_idle (M : RealFns) (s : AnimState) (now : ℚ)
    (ci toI : Int) (d : ℚ)
    (hpos : s.pos_animating = true)
    (hcur : s.cur_sprite_index = some ci) (hd : s.sprite_anim_delay = some d)
    (hto : s.sprite_anim_to_index = some toI)
    (hstart : s.sprite_anim_start_time ≤ now)
    (hlast : s.last_sprite_frame_time + d ≤ now) (hdone : toI < ci + 1) :
    ∃ s', tick M s now = some (s', false) ∧ s'.pos_animating = true ∧
      ∀ now', s.duration ≠ 0 → (now' - s.start_time) / s.duration < 1 →
        s.eased_value ≠ some 0 → ∃ r, tick M s' now' = some (r, true) := by
  refine ⟨{ s with elem := { s.elem with frame := ci }
                   last_sprite_frame_time := -1
                   cur_sprite_index := none
                   sprite_anim_from_index := none
                   sprite_anim_to_index := none
                   sprite_anim_delay := none
                   sprite_anim_start_time := -1 },
      tick_sprite_done M s now ci toI d hcur hd hto hstart hlast hdone, hpos, ?_⟩
  intro now' hdur hlt hev
  obtain ⟨cx, cy, hxy⟩ := tick_pos_lt_one M
    { s with elem := { s.elem with frame := ci }
             last_sprite_frame_time := -1
             cur_sprite_index := none
             sprite_anim_from_index := none
             sprite_anim_to_index := none
             sprite_anim_delay := none
             sprite_anim_start_time := -1 }
    now' false hdur hlt hev
  rw [tick_no_sprite M
    { s with elem := { s.elem with frame := ci }
             last_sprite_frame_time := -1
             cur_sprite_index := none
             sprite_anim_from_index := none
             sprite_anim_to_index := none
             sprite_anim_delay := none
             sprite_anim_start_time := -1 }
    now' rfl hpos]
  exact ⟨_, hxy⟩

theorem tick_false_not_idle_witness :
    ∃ s', tick testFns c10S 3 = some (s', false) ∧ s'.pos_animating = true ∧
      ∃ r, tick testFns s' (1/2) = some (r, true) := by
  obtain ⟨s', h1, h2, h3⟩ := tick_false_not_idle testFns c10S 3
    5 5 (1/2) rfl rfl rfl rfl (by norm_num [c10S, c5S, initAnim])
    (by norm_num [c10S, c5S, initAnim]) (by norm_num)
  exact ⟨s', h1, h2, h3 (1/2) (by norm_num [c10S, c5S, initAnim])
    (by norm_num [c10S, c5S, initAnim]) (by simp [c10S, c5S, initAnim])⟩

end FruitJam
namespace FruitJam

/-- Existential form of `tick_sprite_step_snap` recording what the next call
needs. -/
theorem tick_sprite_advance_spec (M : RealFns) (s : AnimState) (now : ℚ) (ci toI : Int) (d : ℚ)
    (hcur : s.cur_sprite_index = some ci) (hd : s.sprite_anim_delay = some d)
    (hto : s.sprite_anim_to_index = some toI)
    (hstart : s.sprite_anim_start_time ≤ now)
    (hlast : s.last_sprite_frame_time + d ≤ now) (hcont : ci + 1 ≤ toI)
    (hdur : s.duration ≠ 0) (hprog : 1 ≤ (now - s.start_time) / s.duration) :
    ∃ s', tick M s now = some (s', true) ∧ s'.elem.frame = ci ∧
      s'.cur_sprite_index = some (ci + 1) ∧
      s'.sprite_anim_delay = s.sprite_anim_delay ∧
      s'.sprite_anim_to_index = s.sprite_anim_to_index ∧
      s'.sprite_anim_start_time = s.sprite_anim_start_time ∧
      s'.last_sprite_frame_time = now ∧ s'.duration = s.duration ∧
      s'.start_time = s.start_time :=
  ⟨_, tick_sprite_step_snap M s now ci toI d hcur hd hto hstart hlast hcont hdur hprog,
    rfl, rfl, rfl, rfl, rfl, rfl, rfl, rfl⟩

/-- Short existential form of `tick_sprite_step_snap`, matching the goals of
the claims about a sprite advance observed through `tick`. -/
theorem tick_sprite_advance_spec3 (M : RealFns) (s : AnimState) (now : ℚ) (ci toI : Int) (d : ℚ)
    (hcur : s.cur_sprite_index = some ci) (hd : s.sprite_anim_delay = some d)
    (hto : s.sprite_anim_to_index = some toI)
    (hstart : s.sprite_anim_start_time ≤ now)
    (hlast : s.last_sprite_frame_time + d ≤ now) (hcont : ci + 1 ≤ toI)
    (hdur : s.duration ≠ 0) (hprog : 1 ≤ (now - s.start_time) / s.duration) :
    ∃ s', tick M s now = some (s', true) ∧ s'.elem.frame = ci ∧
      s'.cur_sprite_index = some (ci + 1) :=
  ⟨_, tick_sprite_step_snap M s now ci toI d hcur hd hto hstart hlast hcont hdur hprog,
    rfl, rfl⟩

/-- Existential form of `tick_sprite_wait_snap`: a gated call leaves the frame
slot and the sprite index unchanged. -/
theorem tick_sprite_gate_spec (M : RealFns) (s : AnimState) (now : ℚ) (ci : Int) (d : ℚ)
    (hcur : s.cur_sprite_index = some ci) (hd : s.sprite_anim_delay = some d)
    (hstart : s.sprite_anim_start_time ≤ now)
    (hlate : now < s.last_sprite_frame_time + d)
    (hdur : s.duration ≠ 0) (hprog : 1 ≤ (now - s.start_time) / s.duration) :
    ∃ s', tick M s now = some (s', true) ∧ s'.elem.frame = s.elem.frame ∧
      s'.cur_sprite_index = s.cur_sprite_index :=
  ⟨_, tick_sprite_wait_snap M s now ci d hcur hd hstart hlate hdur hprog, rfl, rfl⟩

/-- Existential form of `tick_sprite_done`. -/
theorem tick_sprite_done_spec (M : RealFns) (s : AnimState) (now : ℚ) (ci toI : Int) (d : ℚ)
    (hcur : s.cur_sprite_index = some ci) (hd : s.sprite_anim_delay = some d)
    (hto : s.sprite_anim_to_index = some toI)
    (hstart : s.sprite_anim_start_time ≤ now)
    (hlast : s.last_sprite_frame_time + d ≤ now) (hdone : toI < ci + 1) :
    ∃ s', tick M s now = some (s', false) ∧ s'.elem.frame = ci ∧
      s'.cur_sprite_index = none :=
  ⟨_, tick_sprite_done M s now ci toI d hcur hd hto hstart hlast hdone, rfl, rfl⟩

/-- C1 (amended): with an active position tween of positive duration, a tick
sampled at `elapsed/duration >= 1` snaps the entity to the target and clears
`pos_animating`, returning `false` with no sprite sub-tween and `true` while
a sprite sub-tween survives the call; a tick sampled at `elapsed/duration < 1`
with no sprite sub-tween returns `true`. -/
theorem tick_completion_snap (M : RealFns) (s : AnimState) (now : ℚ)
    (hpos : s.pos_animating = true) (hdur : 0 < s.duration) :
    (1 ≤ (now - s.start_time) / s.duration → s.cur_sprite_index = none →
      ∃ s', tick M s now = some (s', false) ∧ s'.elem.x = s.target_x ∧
        s'.elem.y = s.target_y ∧ s'.pos_animating = false) ∧
    (∀ ci toI d, 1 ≤ (now - s.start_time) / s.duration →
      s.cur_sprite_index = some ci → s.sprite_anim_delay = some d →
      s.sprite_anim_to_index = some toI → s.sprite_anim_start_time ≤ now →
      (s.last_sprite_frame_time + d ≤ now → ci + 1 ≤ toI) →
      ∃ s', tick M s now = some (s', true) ∧ s'.elem.x = s.target_x ∧
        s'.elem.y = s.target_y ∧ s'.pos_animating = false) ∧
    ((now - s.start_time) / s.duration < 1 → s.cur_sprite_index = none →
      s.eased_value ≠ some 0 → ∃ s', tick M s now = some (s', true)) := by
  refine ⟨?_, ?_, ?_⟩
  · intro hprog hcur
    exact ⟨_, tick_idle_snap M s now hcur hpos hdur.ne' hprog, rfl, rfl, rfl⟩
  · intro ci toI d hprog hcur hd hto hstart hcont
    by_cases hl : s.last_sprite_frame_time + d ≤ now
    · exact ⟨_, tick_sprite_step_snap M s now ci toI d hcur hd hto hstart hl
        (hcont hl) hdur.ne' hprog, rfl, rfl, rfl⟩
    · exact ⟨_, tick_sprite_wait_snap M s now ci d hcur hd hstart
        (not_le.mp hl) hdur.ne' hprog, rfl, rfl, rfl⟩
  · intro hprog hcur hev
    obtain ⟨cx, cy, hxy⟩ := tick_pos_lt_one M s now false hdur.ne' hprog hev
    rw [tick_no_sprite M s now hcur hpos]
    exact ⟨_, hxy⟩

theorem tick_completion_snap_witness :
    ∃ s', tick testFns c1wS 2 = some (s', false) ∧ s'.elem.x = c1wS.target_x ∧
      s'.elem.y = c1wS.target_y ∧ s'.pos_animating = false :=
  (tick_completion_snap testFns c1wS 2 rfl (by norm_num [c1wS])).1
    (by norm_num [c1wS]) rfl

/-- C1 counterexample: an animator started by `animate_to` (duration 1,
distance 5) whose sprite sub-tween completes on a tick sampled at
`elapsed/duration = 2 >= 1`: that tick returns `false` immediately, leaving
the entity at `(0, 0)`, not at the target `(3, 4)`, and `pos_animating`
still true — the claimed snap does not happen. -/
theorem tick_completion_snap_cex :
    c1cexAnim = (c1cexS, true) ∧
    c1cexS.pos_animating = true ∧ 0 < c1cexS.duration ∧
    1 ≤ (2 - c1cexS.start_time) / c1cexS.duration ∧
    tick testFns c1cexS 2 = some (c1cexDone, false) ∧
    c1cexDone.elem.x ≠ c1cexS.target_x ∧ c1cexDone.elem.y ≠ c1cexS.target_y ∧
    c1cexDone.pos_animating = true := by
  refine ⟨by with_unfolding_all rfl, rfl, by norm_num [c1cexS],
    by norm_num [c1cexS], by with_unfolding_all rfl, ?_, ?_, rfl⟩
  · simp [c1cexS, c1cexDone]
  · simp [c1cexS, c1cexDone]

end FruitJam
namespace FruitJam

/-- C5: single-tick sprite advancement/gating (on `sprite_anim_tick`), and the
2..5 scenario: with `from=2, to=5, delay=t` armed at time `a`, ticks sampled
every `t` seconds write frames 2,3,4,5 in order and then the sub-tween
reports inactive; a tick sampled less than `t` after the previous frame write
does not advance the index. -/
theorem sprite_frame_sequencing (M : RealFns) (s : AnimState) (a t : ℚ)
    (hcur : s.cur_sprite_index = some 2)
    (hto : s.sprite_anim_to_index = some 5)
    (hd : s.sprite_anim_delay = some t) (ht : 0 < t)
    (hsat : s.sprite_anim_start_time = a)
    (hlast : s.last_sprite_frame_time = -1)
    (hfire : t ≤ a + 1)
    (hdur : 0 < s.duration) (hdone : s.start_time + s.duration ≤ a) :
    (∀ (s' : AnimState) (d ct : ℚ), s'.sprite_anim_delay = some d →
        ct < s'.last_sprite_frame_time + d → sprite_anim_tick s' ct = some (s', true)) ∧
    (∀ (s' : AnimState) (ci toI : Int) (d ct : ℚ),
        s'.cur_sprite_index = some ci → s'.sprite_anim_delay = some d →
        s'.sprite_anim_to_index = some toI →
        s'.last_sprite_frame_time + d ≤ ct → ci + 1 ≤ toI →
        ∃ s'', sprite_anim_tick s' ct = some (s'', true) ∧
          s''.elem.frame = ci ∧ s''.cur_sprite_index = some (ci + 1) ∧
          s''.last_sprite_frame_time = ct) ∧
    ∃ s1 s2 s3 s4,
      tick M s a = some (s1, true) ∧ s1.elem.frame = 2 ∧ s1.cur_sprite_index = some 3 ∧
      tick M s1 (a + t) = some (s2, true) ∧ s2.elem.frame = 3 ∧ s2.cur_sprite_index = some 4 ∧
      tick M s2 (a + 2*t) = some (s3, true) ∧ s3.elem.frame = 4 ∧ s3.cur_sprite_index = some 5 ∧
      tick M s3 (a + 3*t) = some (s4, false) ∧ s4.elem.frame = 5 ∧ s4.cur_sprite_index = none ∧
      ∀ now', a ≤ now' → now' < a + t →
        ∃ s1', tick M s1 now' = some (s1', true) ∧
          s1'.elem.frame = s1.elem.frame ∧ s1'.cur_sprite_index = s1.cur_sprite_index := by
  refine ⟨?_, ?_, ?_⟩
  · intro s' d ct hd' hlate
    exact sprite_step_gated s' ct d hd' hlate
  · intro s' ci toI d ct hc hdd htt hl hcnt
    exact ⟨_, sprite_step_advances s' ct ci toI d hc hdd htt hl hcnt, rfl, rfl, rfl⟩
  · have hprog : ∀ x : ℚ, a ≤ x → 1 ≤ (x - s.start_time) / s.duration := by
      intro x hx
      rw [one_le_div hdur]
      linarith
    obtain ⟨s1, h1, hf1, hc1, hd1, ht1, hsat1, hlast1, hdur1, hst1⟩ :=
      tick_sprite_advance_spec M s a 2 5 t hcur hd hto (le_of_eq hsat)
        (by rw [hlast]; linarith) (by norm_num) hdur.ne' (hprog a le_rfl)
    obtain ⟨s2, h2, hf2, hc2, hd2, ht2, hsat2, hlast2, hdur2, hst2⟩ :=
      tick_sprite_advance_spec M s1 (a + t) 3 5 t hc1 (hd1.trans hd) (ht1.trans hto)
        (by rw [hsat1, hsat]; linarith) (by rw [hlast1]) (by norm_num)
        (by rw [hdur1]; exact hdur.ne')
        (by rw [hst1, hdur1]; exact hprog (a + t) (by linarith))
    obtain ⟨s3, h3, hf3, hc3, hd3, ht3, hsat3, hlast3, hdur3, hst3⟩ :=
      tick_sprite_advance_spec M s2 (a + 2*t) 4 5 t hc2 (hd2.trans (hd1.trans hd))
        (ht2.trans (ht1.trans hto))
        (by rw [hsat2, hsat1, hsat]; linarith) (by rw [hlast2]; linarith) (by norm_num)
        (by rw [hdur2, hdur1]; exact hdur.ne')
        (by rw [hst2, hst1, hdur2, hdur1]; exact hprog (a + 2*t) (by linarith))
    obtain ⟨s4, h4, hf4, hc4⟩ :=
      tick_sprite_done_spec M s3 (a + 3*t) 5 5 t hc3 (hd3.trans (hd2.trans (hd1.trans hd)))
        (ht3.trans (ht2.trans (ht1.trans hto)))
        (by rw [hsat3, hsat2, hsat1, hsat]; linarith) (by rw [hlast3]; linarith)
        (by norm_num)
    refine ⟨s1, s2, s3, s4, h1, hf1, hc1, h2, hf2, hc2, h3, hf3, hc3, h4, hf4, hc4, ?_⟩
    intro now' hge hlt
    exact tick_sprite_gate_spec M s1 now' 3 t hc1 (hd1.trans hd)
      (by rw [hsat1, hsat]; linarith) (by rw [hlast1]; linarith)
      (by rw [hdur1]; exact hdur.ne') (by rw [hst1, hdur1]; exact hprog now' hge)

theorem sprite_frame_sequencing_witness :
    ∃ s1 s2 s3 s4,
      tick testFns c5S 2 = some (s1, true) ∧ s1.elem.frame = 2 ∧ s1.cur_sprite_index = some 3 ∧
      tick testFns s1 (2 + 1/2) = some (s2, true) ∧ s2.elem.frame = 3 ∧ s2.cur_sprite_index = some 4 ∧
      tick testFns s2 (2 + 2*(1/2)) = some (s3, true) ∧ s3.elem.frame = 4 ∧ s3.cur_sprite_index = some 5 ∧
      tick testFns s3 (2 + 3*(1/2)) = some (s4, false) ∧ s4.elem.frame = 5 ∧ s4.cur_sprite_index = none ∧
      ∃ s1', tick testFns s1 (9/4) = some (s1', true) ∧
        s1'.elem.frame = s1.elem.frame ∧ s1'.cur_sprite_index = s1.cur_sprite_index := by
  obtain ⟨s1, s2, s3, s4, h1, hf1, hc1, h2, hf2, hc2, h3, hf3, hc3, h4, hf4, hc4, hgate⟩ :=
    (sprite_frame_sequencing testFns c5S 2 (1/2) rfl rfl rfl (by norm_num) rfl rfl
      (by norm_num) (by norm_num [c5S, initAnim]) (by norm_num [c5S, initAnim])).2.2
  exact ⟨s1, s2, s3, s4, h1, hf1, hc1, h2, hf2, hc2, h3, hf3, hc3, h4, hf4, hc4,
    hgate (9/4) (by norm_num) (by norm_num)⟩

end FruitJam
namespace FruitJam

/-- C9: a zero-distance `animate_to` call that returns `false` has already
overwritten `start_x/y`, `start_time`, `target_x/y`, `duration`,
`overshoot_pixels`, and (with `start_sprite_anim_at` set) armed the whole
sprite sub-tween — which then runs on a later `tick()` — while only
`overshoot_x/y`, `eased_value` and `pos_animating` are left unchanged. -/
theorem animate_to_nonatomic_reject (M : RealFns) (s : AnimState) (now : ℚ)
    (tx ty : Int) (dur : ℚ) (op : Int) (ssa sd : Option ℚ) (sf st : Option Int)
    (ev : Option ℚ) (r : AnimState) (b : Bool)
    (hcall : animate_to M s now tx ty dur op ssa sd sf st ev = (r, b))
    (hx : s.elem.x = tx) (hy : s.elem.y = ty) (hsqrt : M.sqrt 0 = 0) :
    b = false ∧
    r.start_x = s.elem.x ∧ r.start_y = s.elem.y ∧ r.start_time = now ∧
    r.target_x = tx ∧ r.target_y = ty ∧ r.duration = dur ∧
    r.overshoot_pixels = op ∧
    r.overshoot_x = s.overshoot_x ∧ r.overshoot_y = s.overshoot_y ∧
    r.eased_value = s.eased_value ∧ r.pos_animating = s.pos_animating ∧
    (∀ t0, ssa = some t0 →
      r.cur_sprite_index = sf ∧ r.sprite_anim_from_index = sf ∧
      r.sprite_anim_to_index = st ∧ r.sprite_anim_delay = sd ∧
      r.sprite_anim_start_time = now + t0) ∧
    (∀ t0 fi toI d now', ssa = some t0 → sf = some fi → st = some toI →
      sd = some d → fi + 1 ≤ toI → now + t0 ≤ now' →
      s.last_sprite_frame_time + d ≤ now' → dur ≠ 0 → 1 ≤ (now' - now) / dur →
      ∃ r', tick M r now' = some (r', true) ∧ r'.elem.frame = fi ∧
        r'.cur_sprite_index = some (fi + 1)) := by
  subst hx
  subst hy
  rcases ssa with _ | t0
  · unfold animate_to at hcall
    simp only [sub_self, Int.cast_zero, mul_zero, zero_add, hsqrt, le_refl,
      if_true, if_pos] at hcall
    injection hcall with h1 h2
    subst h1
    subst h2
    refine ⟨rfl, rfl, rfl, rfl, rfl, rfl, rfl, rfl, rfl, rfl, rfl, rfl, ?_, ?_⟩
    · intro t0 h
      exact Option.noConfusion h
    · intro t0 fi toI d now' h
      exact Option.noConfusion h
  · unfold animate_to at hcall
    simp only [sub_self, Int.cast_zero, mul_zero, zero_add, hsqrt, le_refl,
      if_true, if_pos] at hcall
    injection hcall with h1 h2
    subst h1
    subst h2
    refine ⟨rfl, rfl, rfl, rfl, rfl, rfl, rfl, rfl, rfl, rfl, rfl, rfl, ?_, ?_⟩
    · intro t1 h
      injection h with h
      subst h
      exact ⟨rfl, rfl, rfl, rfl, rfl⟩
    · intro t1 fi toI d now' hssa hsf hst hsd hcont hstart' hlast hdur hprog
      injection hssa with hssa
      subst hssa
      subst hsf
      subst hst
      subst hsd
      exact tick_sprite_advance_spec3 M _ now' fi toI d rfl rfl rfl hstart' hlast
        hcont hdur hprog

end FruitJam
namespace FruitJam

theorem animate_to_nonatomic_reject_witness :
    c9R.start_time = 0 ∧ c9R.target_x = 5 ∧ c9R.duration = 2 ∧
    c9R.cur_sprite_index = some 2 ∧ c9R.sprite_anim_start_time = 0 + 1 ∧
    c9R.pos_animating = (initAnim ⟨5, 7, 0⟩).pos_animating ∧
    ∃ r', tick testFns c9R 10 = some (r', true) ∧ r'.elem.frame = 2 ∧
      r'.cur_sprite_index = some (2 + 1) := by
  have h := animate_to_nonatomic_reject testFns (initAnim ⟨5, 7, 0⟩) 0 5 7 2 3
    (some 1) (some (1/4)) (some 2) (some 6) (some 1) c9R false
    (by with_unfolding_all rfl) rfl rfl rfl
  obtain ⟨-, -, -, h4, h5, -, h7, -, -, -, -, h12, h13, h14⟩ := h
  obtain ⟨ha, hb, hc, hd', he⟩ := h13 1 rfl
  exact ⟨h4, h5, h7, ha, he, h12, h14 1 2 6 (1/4) 10 rfl rfl rfl rfl (by norm_num)
    (by norm_num) (by norm_num [initAnim]) (by norm_num) (by norm_num)⟩

end FruitJam
namespace FruitJam

/-- C4: the overshoot point computed by a successful `animate_to`, and the
easing formula used by a mid-flight `tick` in each of the four branches, with
the resulting coordinates truncated to integers and the call returning
`true`. -/
theorem tick_easing_branches (M : RealFns) (s : AnimState) (now : ℚ)
    (hpos : s.pos_animating = true) (hcur : s.cur_sprite_index = none)
    (hdur : s.duration ≠ 0) (hprog : (now - s.start_time) / s.duration < 1) :
    (∀ (s₀ : AnimState) (now₀ : ℚ) (tx ty : Int) (dur : ℚ) (op : Int)
        (ssa sd : Option ℚ) (sf st : Option Int) (ev : Option ℚ) (r : AnimState),
      animate_to M s₀ now₀ tx ty dur op ssa sd sf st ev = (r, true) →
      r.overshoot_x = (tx : ℚ) + ((tx - s₀.elem.x : Int) : ℚ)
          / M.sqrt (((tx - s₀.elem.x : Int) : ℚ) * ((tx - s₀.elem.x : Int) : ℚ)
              + ((ty - s₀.elem.y : Int) : ℚ) * ((ty - s₀.elem.y : Int) : ℚ)) * (op : ℚ) ∧
      r.overshoot_y = (ty : ℚ) + ((ty - s₀.elem.y : Int) : ℚ)
          / M.sqrt (((tx - s₀.elem.x : Int) : ℚ) * ((tx - s₀.elem.x : Int) : ℚ)
              + ((ty - s₀.elem.y : Int) : ℚ) * ((ty - s₀.elem.y : Int) : ℚ)) * (op : ℚ)) ∧
    (0 < s.overshoot_pixels → (now - s.start_time) / s.duration < 7/10 →
      tick M s now = some ({ s with elem := { s.elem with
        x := truncQ ((s.start_x : ℚ) + (s.overshoot_x - (s.start_x : ℚ)) *
              M.pow12 (((now - s.start_time) / s.duration) / (7/10)))
        y := truncQ ((s.start_y : ℚ) + (s.overshoot_y - (s.start_y : ℚ)) *
              M.pow12 (((now - s.start_time) / s.duration) / (7/10))) } }, true)) ∧
    (0 < s.overshoot_pixels → 7/10 ≤ (now - s.start_time) / s.duration →
      tick M s now = some ({ s with elem := { s.elem with
        x := truncQ (s.overshoot_x + ((s.target_x : ℚ) - s.overshoot_x) *
              (1 - (1 - ((now - s.start_time) / s.duration - 7/10) / (3/10)) ^ 2))
        y := truncQ (s.overshoot_y + ((s.target_y : ℚ) - s.overshoot_y) *
              (1 - (1 - ((now - s.start_time) / s.duration - 7/10) / (3/10)) ^ 2)) } }, true)) ∧
    (s.overshoot_pixels = 0 → s.eased_value = none →
      tick M s now = some ({ s with elem := { s.elem with
        x := truncQ ((s.start_x : ℚ) + ((s.target_x : ℚ) - (s.start_x : ℚ)) *
              (1 - (1 - (now - s.start_time) / s.duration) ^ 4))
        y := truncQ ((s.start_y : ℚ) + ((s.target_y : ℚ) - (s.start_y : ℚ)) *
              (1 - (1 - (now - s.start_time) / s.duration) ^ 4)) } }, true)) ∧
    (∀ ev : ℚ, s.overshoot_pixels = 0 → s.eased_value = some ev → ev ≠ 0 →
      tick M s now = some ({ s with elem := { s.elem with
        x := truncQ ((s.start_x : ℚ) + ((s.target_x : ℚ) - (s.start_x : ℚ)) *
              ((now - s.start_time) / s.duration / ev))
        y := truncQ ((s.start_y : ℚ) + ((s.target_y : ℚ) - (s.start_y : ℚ)) *
              ((now - s.start_time) / s.duration / ev)) } }, true)) := by
  have htp := tick_no_sprite M s now hcur hpos
  refine ⟨?_, ?_, ?_, ?_, ?_⟩
  · intro s₀ now₀ tx ty dur op ssa sd sf st ev r hcall
    rcases ssa with _ | t0 <;>
    · unfold animate_to at hcall
      dsimp only at hcall
      split_ifs at hcall with hle
      · have hfb := congrArg Prod.snd hcall
        simp at hfb
      · injection hcall with h1 h2
        subst h1
        exact ⟨rfl, rfl⟩
  · intro h1 h2
    rw [htp]
    unfold tick_pos
    rw [if_neg hdur, if_neg (not_le.mpr hprog), if_pos h1, if_pos h2]
  · intro h1 h2
    rw [htp]
    unfold tick_pos
    rw [if_neg hdur, if_neg (not_le.mpr hprog), if_pos h1, if_neg (not_lt.mpr h2)]
  · intro h1 h2
    rw [htp]
    unfold tick_pos
    rw [if_neg hdur, if_neg (not_le.mpr hprog), if_neg (by rw [h1]; exact lt_irrefl 0), h2]
  · intro ev h1 h2 hev0
    rw [htp]
    unfold tick_pos
    rw [if_neg hdur, if_neg (not_le.mpr hprog), if_neg (by rw [h1]; exact lt_irrefl 0)]
    simp only [h2, if_neg hev0]

theorem tick_easing_branches_witness :
    tick testFns c4S (1/2) = some ({ c4S with elem := { c4S.elem with
      x := truncQ ((c4S.start_x : ℚ) + (c4S.overshoot_x - (c4S.start_x : ℚ)) *
            testFns.pow12 ((((1:ℚ)/2 - c4S.start_time) / c4S.duration) / (7/10)))
      y := truncQ ((c4S.start_y : ℚ) + (c4S.overshoot_y - (c4S.start_y : ℚ)) *
            testFns.pow12 ((((1:ℚ)/2 - c4S.start_time) / c4S.duration) / (7/10))) } }, true) :=
  (tick_easing_branches testFns c4S (1/2) rfl rfl (by norm_num [c4S])
    (by norm_num [c4S])).2.1 (by norm_num [c4S]) (by norm_num [c4S])

end FruitJam
namespace FruitJam

/-- The position tail reads and writes only the `posView` fragment: two states
agreeing there produce the same optional `(posView, Bool)` outcome. -/
theorem tick_pos_pure (M : RealFns) (now : ℚ) (b : Bool) (s₁ s₂ : AnimState)
    (h : posView s₁ = posView s₂) :
    Option.map (fun r => (posView r.1, r.2)) (tick_pos M s₁ now b) =
    Option.map (fun r => (posView r.1, r.2)) (tick_pos M s₂ now b) := by
  obtain ⟨⟨x₁, y₁, f₁⟩, pa₁, st₁, sx₁, sy₁, tx₁, ty₁, ox₁, oy₁, du₁, op₁, ev₁,
    cs₁, lt₁, sat₁, sfi₁, sti₁, sd₁⟩ := s₁
  obtain ⟨⟨x₂, y₂, f₂⟩, pa₂, st₂, sx₂, sy₂, tx₂, ty₂, ox₂, oy₂, du₂, op₂, ev₂,
    cs₂, lt₂, sat₂, sfi₂, sti₂, sd₂⟩ := s₂
  simp only [posView, Prod.mk.injEq] at h
  obtain ⟨rfl, rfl, rfl, rfl, rfl, rfl, rfl, rfl, rfl, rfl, rfl, rfl, rfl⟩ := h
  rcases ev₁ with _ | ev <;>
  · unfold tick_pos
    dsimp only
    split_ifs <;> simp [posView]

/-- The position tail never touches `cur_sprite_index`. -/
theorem tick_pos_cur (M : RealFns) (s : AnimState) (now : ℚ) (b : Bool)
    (r : AnimState × Bool) (h : tick_pos M s now b = some r) :
    r.1.cur_sprite_index = s.cur_sprite_index := by
  by_cases hdur : s.duration = 0
  · unfold tick_pos at h
    rw [if_pos hdur] at h
    exact Option.noConfusion h
  by_cases hp : 1 ≤ (now - s.start_time) / s.duration
  · rw [tick_pos_ge_one M s now b hdur hp] at h
    injection h with h'
    subst h'
    rfl
  by_cases hop : 0 < s.overshoot_pixels
  · unfold tick_pos at h
    rw [if_neg hdur, if_neg hp, if_pos hop] at h
    dsimp only at h
    split_ifs at h <;>
    · injection h with h'
      subst h'
      rfl
  · unfold tick_pos at h
    rw [if_neg hdur, if_neg hp, if_neg hop] at h
    rcases hev : s.eased_value with _ | ev
    · simp only [hev] at h
      injection h with h'
      subst h'
      rfl
    · simp only [hev] at h
      split_ifs at h
      dsimp only at h
      injection h with h'
      subst h'
      rfl

/-- One tick preserves `PosAgree` and produces equal boolean results (or
fails identically on both states). -/
theorem tick_pure_step (M : RealFns) (t : ℚ) (s₁ s₂ : AnimState)
    (h : PosAgree s₁ s₂) :
    (tick M s₁ t = none ∧ tick M s₂ t = none) ∨
    (∃ r₁ r₂, tick M s₁ t = some r₁ ∧ tick M s₂ t = some r₂ ∧
      PosAgree r₁.1 r₂.1 ∧ r₁.2 = r₂.2) := by
  obtain ⟨hpv, hc₁, hc₂⟩ := h
  have hpa : s₁.pos_animating = s₂.pos_animating :=
    congrArg (fun p => p.2.2.1) hpv
  cases hb : s₁.pos_animating with
  | false =>
    have hb₂ : s₂.pos_animating = false := by rw [← hpa]; exact hb
    right
    refine ⟨(s₁, false), (s₂, false), ?_, ?_, ⟨hpv, hc₁, hc₂⟩, rfl⟩
    · simp [tick, hc₁, hb]
    · simp [tick, hc₂, hb₂]
  | true =>
    have hb₂ : s₂.pos_animating = true := by rw [← hpa]; exact hb
    have h₁ := tick_no_sprite M s₁ t hc₁ hb
    have h₂ := tick_no_sprite M s₂ t hc₂ hb₂
    have hmap := tick_pos_pure M t false s₁ s₂ hpv
    rcases htp₁ : tick_pos M s₁ t false with _ | r₁ <;>
      rcases htp₂ : tick_pos M s₂ t false with _ | r₂ <;>
      rw [htp₁, htp₂] at hmap
    · left
      exact ⟨by rw [h₁, htp₁], by rw [h₂, htp₂]⟩
    · exact absurd hmap (by simp)
    · exact absurd hmap (by simp)
    · right
      simp only [Option.map_some', Option.some.injEq, Prod.mk.injEq] at hmap
      obtain ⟨hpv', hb'⟩ := hmap
      refine ⟨r₁, r₂, by rw [h₁, htp₁], by rw [h₂, htp₂], ⟨hpv', ?_, ?_⟩, hb'⟩
      · rw [tick_pos_cur M s₁ t false r₁ htp₁]
        exact hc₁
      · rw [tick_pos_cur M s₂ t false r₂ htp₂]
        exact hc₂

/-- C7: with identical position-tween parameters, start position, and sampled
times, two independent animators produce identical recorded integer position
sequences — the written positions are a pure function of the parameters and
the sampled elapsed times (sprite-slot contents cannot influence them). -/
theorem tick_trace_deterministic (M : RealFns) (ts : List ℚ) (s₁ s₂ : AnimState)
    (h : PosAgree s₁ s₂) : tickTrace M s₁ ts = tickTrace M s₂ ts := by
  induction ts generalizing s₁ s₂ with
  | nil => rfl
  | cons t ts ih =>
    rcases tick_pure_step M t s₁ s₂ h with ⟨h₁, h₂⟩ | ⟨r₁, r₂, h₁, h₂, hag, hb⟩
    · simp [tickTrace, h₁, h₂]
    · have hx : r₁.1.elem.x = r₂.1.elem.x := congrArg (fun p => p.1) hag.1
      have hy : r₁.1.elem.y = r₂.1.elem.y := congrArg (fun p => p.2.1) hag.1
      simp [tickTrace, h₁, h₂, hx, hy, ih _ _ hag]

theorem tick_trace_deterministic_witness :
    tickTrace testFns c1wS [1/4, 1/2, 2] =
    tickTrace testFns { c1wS with elem := { c1wS.elem with frame := 9 } }
      [1/4, 1/2, 2] :=
  tick_trace_deterministic testFns [1/4, 1/2, 2] c1wS
    { c1wS with elem := { c1wS.elem with frame := 9 } } ⟨rfl, rfl, rfl⟩

end FruitJam
namespace FruitJam

/-- If the store already holds `(vx, vy)` at index `i` and every step of `l`
that writes index `i` writes `(vx, vy)`, the restart fold preserves it. -/
theorem reset_fold_preserves (l : List SchedStep) (acc : Nat → AnimState)
    (i : Nat) (vx vy : Int)
    (hx : (acc i).elem.x = vx) (hy : (acc i).elem.y = vy)
    (hall : ∀ step ∈ l, ∀ a, step.kind = .animStep a → a.animIdx = i →
      a.offscreen_loc = (vx, vy)) :
    ((l.foldl reset_step acc) i).elem.x = vx ∧
    ((l.foldl reset_step acc) i).elem.y = vy := by
  induction l generalizing acc with
  | nil => exact ⟨hx, hy⟩
  | cons st l ih =>
    rw [List.foldl_cons]
    have hnext : ((reset_step acc st) i).elem.x = vx ∧
        ((reset_step acc st) i).elem.y = vy := by
      unfold reset_step
      rcases hk : st.kind with a | c
      · unfold updateStore
        dsimp only
        by_cases hi : i = a.animIdx
        · have hoff := hall st (List.mem_cons_self st l) a hk hi.symm
          rw [if_pos hi]
          constructor
          · show a.offscreen_loc.1 = vx
            rw [hoff]
          · show a.offscreen_loc.2 = vy
            rw [hoff]
        · rw [if_neg hi]
          exact ⟨hx, hy⟩
      · exact ⟨hx, hy⟩
    exact ih (reset_step acc st) hnext.1 hnext.2
      (fun step hm a hk hi => hall step (List.mem_cons_of_mem _ hm) a hk hi)

/-- When all steps that share an animator index share an `offscreen_loc`, the
restart fold leaves every animation step's element at that step's own
`offscreen_loc`. -/
theorem reset_fold_offscreen (l : List SchedStep) (acc : Nat → AnimState)
    (hcons : ∀ s1 ∈ l, ∀ s2 ∈ l, ∀ a1 a2, s1.kind = .animStep a1 →
      s2.kind = .animStep a2 → a1.animIdx = a2.animIdx →
      a1.offscreen_loc = a2.offscreen_loc) :
    ∀ step ∈ l, ∀ a, step.kind = .animStep a →
      ((l.foldl reset_step acc) a.animIdx).elem.x = a.offscreen_loc.1 ∧
      ((l.foldl reset_step acc) a.animIdx).elem.y = a.offscreen_loc.2 := by
  induction l generalizing acc with
  | nil => intro step hm; cases hm
  | cons st l ih =>
    intro step hm a hk
    rw [List.foldl_cons]
    rcases List.mem_cons.mp hm with rfl | hm'
    · have hacc : ((reset_step acc step) a.animIdx).elem.x = a.offscreen_loc.1 ∧
          ((reset_step acc step) a.animIdx).elem.y = a.offscreen_loc.2 := by
        unfold reset_step
        rw [hk]
        unfold updateStore
        dsimp only
        rw [if_pos rfl]
        exact ⟨rfl, rfl⟩
      refine reset_fold_preserves l (reset_step acc step) a.animIdx
        a.offscreen_loc.1 a.offscreen_loc.2 hacc.1 hacc.2 ?_
      intro s2 hm2 a2 hk2 hi2
      have heq := hcons step (List.mem_cons_self step l) s2
        (List.mem_cons_of_mem _ hm2) a a2 hk hk2 hi2.symm
      rw [← heq]
    · exact ih (reset_step acc st)
        (fun s1 h1 s2 h2 => hcons s1 (List.mem_cons_of_mem _ h1) s2
          (List.mem_cons_of_mem _ h2)) step hm' a hk

end FruitJam
namespace FruitJam

/-- C6 (amended): when the frame pass reports `still_going = false`, the
restart branch repositions every `animation_step`'s entity to its
`offscreen_loc`, clears every `started` flag, and resets the sequence origin
to the monotonic sample taken after the deliberate `time.sleep(2)` pause and
palette restore — hence at least 2 seconds after the frame's sample `now`,
not within one frame interval of it. -/
theorem sched_restart_resets (M : RealFns) (st : SchedState) (now now2 : ℚ)
    (steps1 : List SchedStep) (anims1 : Nat → AnimState) (pal1 : Nat)
    (hrun : run_steps M now (now - st.origin) (st.steps.length - 1) st.steps 0
        st.anims st.palette true = some (steps1, anims1, pal1, false))
    (s0 : SchedStep) (rest : List SchedStep) (a0 : AnimStepData)
    (hsteps1 : steps1 = s0 :: rest) (hs0 : s0.kind = .animStep a0)
    (hcons : ∀ s1 ∈ steps1, ∀ s2 ∈ steps1, ∀ a1 a2, s1.kind = .animStep a1 →
      s2.kind = .animStep a2 → a1.animIdx = a2.animIdx →
      a1.offscreen_loc = a2.offscreen_loc)
    (hsleep : now + 2 ≤ now2) :
    ∃ st', sched_frame M st now now2 = some st' ∧
      st'.origin = now2 ∧ 2 ≤ st'.origin - now ∧
      (∀ step ∈ st'.steps, step.started = false) ∧
      (∀ step ∈ steps1, ∀ a, step.kind = .animStep a →
        (st'.anims a.animIdx).elem.x = a.offscreen_loc.1 ∧
        (st'.anims a.animIdx).elem.y = a.offscreen_loc.2) := by
  subst hsteps1
  have hframe : sched_frame M st now now2 =
      some { steps := (s0 :: rest).map (fun step => { step with started := false })
             anims := updateStore ((s0 :: rest).foldl reset_step anims1) a0.animIdx
               { ((s0 :: rest).foldl reset_step anims1) a0.animIdx with
                 elem := { (((s0 :: rest).foldl reset_step anims1) a0.animIdx).elem with
                   frame := 0 } }
             palette := 0xffffff
             origin := now2 } := by
    unfold sched_frame
    rw [hrun]
    simp only [Option.bind_eq_bind, Option.some_bind, Bool.false_eq_true, if_false,
      List.head?_cons, hs0]
  refine ⟨_, hframe, rfl, by linarith, ?_, ?_⟩
  · intro step hm
    simp only [List.mem_map] at hm
    obtain ⟨t, -, rfl⟩ := hm
    rfl
  · intro step hm a hk
    have hoff := reset_fold_offscreen (s0 :: rest) anims1 hcons step hm a hk
    simp only [updateStore]
    split_ifs with hi
    · rw [hi] at hoff
      exact ⟨hoff.1, hoff.2⟩
    · exact hoff

end FruitJam
namespace FruitJam

/-- Steps of the concrete scheduler state sharing an animator index share
their `offscreen_loc` (as the real step table does for the bounce steps). -/
theorem c6St_offscreen_consistent : ∀ s1 ∈ c6St.steps, ∀ s2 ∈ c6St.steps,
    ∀ a1 a2, s1.kind = .animStep a1 → s2.kind = .animStep a2 →
    a1.animIdx = a2.animIdx → a1.offscreen_loc = a2.offscreen_loc := by
  intro s1 h1 s2 h2 a1 a2 hk1 hk2 hidx
  simp only [c6St, List.mem_cons, List.not_mem_nil, or_false] at h1 h2
  rcases h1 with rfl | rfl | rfl <;> rcases h2 with rfl | rfl | rfl <;>
    first
      | (injection hk1 <;> done)
      | (injection hk2 <;> done)
      | (injection hk1 with e1
         injection hk2 with e2
         subst e1
         subst e2
         simp_all [c6Apple, c6Letter])

theorem sched_restart_resets_witness :
    ∃ st', sched_frame testFns c6St 10 12 = some st' ∧
      st'.origin = 12 ∧ 2 ≤ st'.origin - 10 ∧
      (∀ step ∈ st'.steps, step.started = false) ∧
      (∀ step ∈ c6St.steps, ∀ a, step.kind = .animStep a →
        (st'.anims a.animIdx).elem.x = a.offscreen_loc.1 ∧
        (st'.anims a.animIdx).elem.y = a.offscreen_loc.2) :=
  sched_restart_resets testFns c6St 10 12 c6St.steps _ _
    (by with_unfolding_all rfl) _ _ c6Apple rfl rfl
    c6St_offscreen_consistent (by norm_num)

/-- C6 counterexample to the "within one frame interval" clause: at the
concrete restart frame sampled at `T = 10`, the code's mandatory
`time.sleep(2)` before re-sampling the origin makes the new origin 12, a full
2 seconds after `T` — not within a frame interval (e.g. 1/30 s at 30 fps). -/
theorem sched_restart_resets_cex :
    Option.map (fun st' => st'.origin) (sched_frame testFns c6St 10 12) = some 12 ∧
    (12 : ℚ) - 10 = 2 ∧ ¬((12 : ℚ) - 10 ≤ 1/30) := by
  refine ⟨?_, by norm_num, by norm_num⟩
  with_unfolding_all rfl

end FruitJam
